import Mathlib

/-!
Verification development for the ExtractMogi contact-extraction pipeline.

The Python sources are shallowly embedded:
  * `GoogleScraper._format_phone`           → `formatPhone`
  * `GoogleScraper._extract_facebook_link`  → `extractFacebookLink`
  * `FacebookScraper._extract_email`        → `extractEmail`
  * `FacebookScraper._extract_whatsapp`     → `extractWhatsapp`
  * `FacebookScraper._format_whatsapp`      → `formatWhatsapp`
  * `AsyncCSVProcessor._save_to_database`   → `saveToDatabase`
  * `GoogleScraper.search_company` (challenge control flow) → `challengeFlow`
  * `AsyncCSVProcessor.process_all`         → `processAll`

Strings are manipulated through their underlying `List Char`; all
definitions are executable so concrete runs can be checked by `decide`.
-/

namespace ExtractMogi

/-! ### Character classes (ASCII, as used by the Python regexes on these pages) -/

/-- Python `\d` restricted to ASCII, the only digits appearing in the scraped data. -/
def isDigitCh (c : Char) : Bool := '0' ≤ c && c ≤ '9'

/-- Python `re.sub(r"[^\d]", "", s)`: keep only digit characters. -/
def onlyDigits (s : List Char) : List Char := s.filter isDigitCh

/-! ### `GoogleScraper._format_phone` (google_scraper.py lines 364-386)

```python
phone = re.sub(r"[^\d]", "", phone)
if len(phone) == 11:
    return f"({phone[:2]}) {phone[2:7]}-{phone[7:]}"
elif len(phone) == 10:
    return f"({phone[:2]}) {phone[2:6]}-{phone[6:]}"
elif len(phone) == 9:
    return f"{phone[:5]}-{phone[5:]}"
elif len(phone) == 8:
    return f"{phone[:4]}-{phone[4:]}"
return phone
```
-/

def formatPhoneL (phone : List Char) : List Char :=
  let p := onlyDigits phone
  if p.length = 11 then
    '(' :: p.take 2 ++ ')' :: ' ' :: (p.drop 2).take 5 ++ '-' :: p.drop 7
  else if p.length = 10 then
    '(' :: p.take 2 ++ ')' :: ' ' :: (p.drop 2).take 4 ++ '-' :: p.drop 6
  else if p.length = 9 then
    p.take 5 ++ '-' :: p.drop 5
  else if p.length = 8 then
    p.take 4 ++ '-' :: p.drop 4
  else
    p

def formatPhone (phone : String) : String := String.mk (formatPhoneL phone.data)

/-! ### URL redirect unwrapping and `GoogleScraper._extract_facebook_link`
(google_scraper.py lines 337-362)

```python
for link in all_links:
    href = await link.get_attribute("href")
    if not href:
        continue
    if href.startswith("/url?"):
        parsed = parse_qs(urlparse(href).query)
        href = parsed.get("url", [parsed.get("q", [None])[0]])[0]
    if href and ("facebook.com" in href or "instagram.com" in href):
        clean_url = href.split("?")[0].split("#")[0]
        if "/posts/" not in clean_url and "/p/" not in clean_url:
            return clean_url
return None
```
The page is modelled as the list of `href` attribute values in DOM order.
-/

/-- Python substring containment `needle in hay`. -/
def containsSub (hay needle : List Char) : Bool :=
  (List.range (hay.length + 1)).any (fun i => needle.isPrefixOf (hay.drop i))

/-- Value of one hex digit, as used by `urllib.parse.unquote`. -/
def hexVal (c : Char) : Option Nat :=
  if '0' ≤ c ∧ c ≤ '9' then some (c.toNat - '0'.toNat)
  else if 'a' ≤ c ∧ c ≤ 'f' then some (c.toNat - 'a'.toNat + 10)
  else if 'A' ≤ c ∧ c ≤ 'F' then some (c.toNat - 'A'.toNat + 10)
  else none

/-- Python `urllib.parse.unquote_plus` on ASCII data: `+` becomes a space and
`%XY` hex escapes decode to the corresponding byte; malformed escapes are
left as-is (single-byte code points only, which covers the scraped URLs). -/
def unquotePlus : List Char → List Char
  | [] => []
  | '+' :: rest => ' ' :: unquotePlus rest
  | '%' :: a :: b :: rest =>
    match hexVal a, hexVal b with
    | some x, some y => Char.ofNat (16 * x + y) :: unquotePlus rest
    | _, _ => '%' :: unquotePlus (a :: b :: rest)
  | c :: rest => c :: unquotePlus rest

/-- Python `urlparse(href).query`: the text between the first `?` and the
following `#` (empty when there is no `?`). -/
def queryOf (href : List Char) : List Char :=
  ((href.dropWhile (· ≠ '?')).drop 1).takeWhile (· ≠ '#')

/-- Python `urllib.parse.parse_qsl(query)` with default options: split on `&`,
split each part at the first `=`, drop parts without `=` and parts with an
empty value (`keep_blank_values=False`), percent-decode names and values. -/
def parsePairs (query : List Char) : List (List Char × List Char) :=
  (List.splitOn '&' query).filterMap fun part =>
    let name := part.takeWhile (· ≠ '=')
    if name.length = part.length then none
    else
      let value := part.drop (name.length + 1)
      if value.isEmpty then none
      else some (unquotePlus name, unquotePlus value)

/-- First value stored under `key`: `parse_qs(query).get(key, [..])[0]`
(`parse_qs` groups values per key in order, so element 0 of the group is
the first pair with that key). -/
def firstParam (pairs : List (List Char × List Char)) (key : List Char) : Option (List Char) :=
  (pairs.find? (fun p => p.1 == key)).map Prod.snd

/-- The redirect-wrapper unwrap: for an `/url?...` href take query parameter
`url`, else `q`, else `None`; other hrefs pass through unchanged. -/
def unwrapHref (href : List Char) : Option (List Char) :=
  if "/url?".data.isPrefixOf href then
    let pairs := parsePairs (queryOf href)
    match firstParam pairs "url".data with
    | some v => some v
    | none => firstParam pairs "q".data
  else some href

/-- Python `href.split("?")[0].split("#")[0]`. -/
def cleanUrl (href : List Char) : List Char :=
  (href.takeWhile (· ≠ '?')).takeWhile (· ≠ '#')

/-- Embeds `GoogleScraper._extract_facebook_link`, over the list of href values. -/
def extractFacebookLinkL : List (List Char) → Option (List Char)
  | [] => none
  | href :: rest =>
    if href.isEmpty then extractFacebookLinkL rest
    else
      match unwrapHref href with
      | none => extractFacebookLinkL rest
      | some h =>
        if !h.isEmpty && (containsSub h "facebook.com".data || containsSub h "instagram.com".data)
        then
          let clean := cleanUrl h
          if !containsSub clean "/posts/".data && !containsSub clean "/p/".data then some clean
          else extractFacebookLinkL rest
        else extractFacebookLinkL rest

def extractFacebookLink (hrefs : List String) : Option String :=
  (extractFacebookLinkL (hrefs.map String.data)).map String.mk

/-! ### `FacebookScraper._extract_email` (facebook_scraper.py lines 91-123)

```python
email_pattern = r"\b[A-Za-z0-9._%+-]+@[A-Za-z0-9.-]+\.[A-Z|a-z]{2,}\b"
excluded_domains = ["facebook.com", "instagram.com", "twitter.com",
                    "google.com", "outlook.com", "example.com"]
emails = re.findall(email_pattern, content)
for email in emails:
    if not any(domain in email.lower() for domain in excluded_domains):
        return email.lower()
return None
```

The regex is modelled by a matcher with Python's leftmost-greedy
backtracking semantics specialised to this pattern: the local part
`[A-Za-z0-9._%+-]+` and the `@` are deterministic (the local class excludes
`@`), while the split of `[A-Za-z0-9.-]+\.` backtracks from the longest
domain run downwards and `[A-Z|a-z]{2,}\b` backtracks from the longest
letter run downwards.  `re.findall` scans left to right and resumes after
each non-overlapping match.
-/

/-- Class `[A-Za-z0-9._%+-]` (the local part of the email pattern). -/
def isLocalCh (c : Char) : Bool :=
  ('A' ≤ c && c ≤ 'Z') || ('a' ≤ c && c ≤ 'z') || isDigitCh c ||
    c = '.' || c = '_' || c = '%' || c = '+' || c = '-'

/-- Class `[A-Za-z0-9.-]` (the domain run of the email pattern). -/
def isDomCh (c : Char) : Bool :=
  ('A' ≤ c && c ≤ 'Z') || ('a' ≤ c && c ≤ 'z') || isDigitCh c || c = '.' || c = '-'

/-- Class `[A-Z|a-z]` (the final label; the class literally includes the bar). -/
def isTldCh (c : Char) : Bool :=
  ('A' ≤ c && c ≤ 'Z') || ('a' ≤ c && c ≤ 'z') || c = '|'

/-- Regex `\w` restricted to ASCII. -/
def isWordCh (c : Char) : Bool :=
  ('A' ≤ c && c ≤ 'Z') || ('a' ≤ c && c ≤ 'z') || isDigitCh c || c = '_'

/-- Whether the character at index `i` is a word character (out of range is not). -/
def isWordAt (s : List Char) (i : Nat) : Bool :=
  match s.get? i with
  | some c => isWordCh c
  | none => false

/-- Regex `\b` at index `i`: exactly one side of the position is a word character. -/
def boundaryAt (s : List Char) (i : Nat) : Bool :=
  (if i = 0 then false else isWordAt s (i - 1)) != isWordAt s i

/-- End index of the maximal run of `p`-characters starting at `i`. -/
def runEnd (p : Char → Bool) (s : List Char) (i : Nat) : Nat :=
  i + ((s.drop i).takeWhile p).length

/-- The list `hi, hi-1, ..., lo` (empty when `hi < lo`): backtracking order. -/
def downFromTo (hi lo : Nat) : List Nat :=
  (List.range (hi + 1 - lo)).reverse.map (lo + ·)

/-- Match the email pattern anchored at index `i`; returns the end index of
the (greedy) match Python's engine produces there. -/
def matchEmailAt (s : List Char) (i : Nat) : Option Nat :=
  if boundaryAt s i = false then none
  else
    let L := runEnd isLocalCh s i
    if L = i then none
    else if s.get? L ≠ some '@' then none
    else
      let dStart := L + 1
      let D := runEnd isDomCh s dStart
      (downFromTo (D - 1) (dStart + 1)).findSome? fun k =>
        if s.get? k = some '.' then
          let T := runEnd isTldCh s (k + 1)
          (downFromTo T (k + 3)).findSome? fun t =>
            if boundaryAt s t then some t else none
        else none

/-- Python `re.findall` scan for the email pattern: try each index left to right,
resume after the end of every match.  The fuel argument bounds the number
of scan steps; each step advances the index, so `s.length + 1` suffices. -/
def emailScanL (s : List Char) : Nat → Nat → List (List Char)
  | 0, _ => []
  | Nat.succ fuel, i =>
    match matchEmailAt s i with
    | some e => ((s.drop i).take (e - i)) :: emailScanL s fuel e
    | none => if i < s.length then emailScanL s fuel (i + 1) else []

/-- All email-pattern matches of the content, in order. -/
def emailFindAll (s : List Char) : List (List Char) :=
  emailScanL s (s.length + 1) 0

/-- The `excluded_domains` list. -/
def excludedDomains : List (List Char) :=
  ["facebook.com".data, "instagram.com".data, "twitter.com".data,
   "google.com".data, "outlook.com".data, "example.com".data]

/-- Python `str.lower()` on ASCII content. -/
def lowerL (s : List Char) : List Char := s.map Char.toLower

/-- Test `any(domain in email.lower() for domain in excluded_domains)`. -/
def isExcludedEmail (e : List Char) : Bool :=
  excludedDomains.any (fun d => containsSub (lowerL e) d)

/-- The `for email in emails` loop: lowercase of the first match no excluded
domain occurs in. -/
def firstOkEmail : List (List Char) → Option (List Char)
  | [] => none
  | e :: rest => if isExcludedEmail e then firstOkEmail rest else some (lowerL e)

/-- Embeds `FacebookScraper._extract_email`. -/
def extractEmail (content : List Char) : Option (List Char) :=
  firstOkEmail (emailFindAll content)

/-! ### `FacebookScraper._extract_whatsapp` and `_format_whatsapp`
(facebook_scraper.py lines 126-197)

```python
phone_patterns = [
    r"\(19\)\s*9\s*\d{4}[-\s]?\d{4}",
    r"19\s*9\s*\d{4}[-\s]?\d{4}",
    r"\+55\s*19\s*9\s*\d{4}[-\s]?\d{4}",
    r"55\s*19\s*9\s*\d{4}[-\s]?\d{4}",
]
for pattern in phone_patterns:
    matches = re.findall(pattern, content)
    if matches:
        phone = re.sub(r"[^\d]", "", matches[0])
        if len(phone) >= 11 and phone[-11:-9] == "19" and phone[-10] == "9":
            return FacebookScraper._format_whatsapp(phone[-11:])
whatsapp_context = (
    r"(?i)(whatsapp|celular|contato|telefone)[\s\S]{0,50}9\s*\d{4}[-\s]?\d{4}"
)
context_matches = re.findall(whatsapp_context, content)
if context_matches:
    number_match = re.search(r"9\s*\d{4}[-\s]?\d{4}", context_matches[0])
    if number_match:
        phone = re.sub(r"[^\d]", "", number_match.group())
        if len(phone) == 9:
            return f"(19) {FacebookScraper._format_whatsapp(f'19{phone}')}"
return None
```

Note that `whatsapp_context` contains one capture group, so `re.findall`
returns the captured keyword, not the whole match; the model reproduces
exactly that.
-/

/-- Python `\s` on ASCII. -/
def isSpaceCh (c : Char) : Bool :=
  c = ' ' || c = '\t' || c = '\n' || c = '\r' || c = '\x0b' || c = '\x0c'

/-- Class `[-\s]`. -/
def isSepCh (c : Char) : Bool := c = '-' || isSpaceCh c

/-- Literal text at index `i`. -/
def litAt (lit s : List Char) (i : Nat) : Option Nat :=
  if lit.isPrefixOf (s.drop i) then some (i + lit.length) else none

/-- Piece `\d{n}` at index `i`. -/
def digitsAt (n : Nat) (s : List Char) (i : Nat) : Option Nat :=
  if ((s.drop i).take n).length = n ∧ ((s.drop i).take n).all isDigitCh then some (i + n)
  else none

/-- Piece `\d{4}[-\s]?\d{4}` at index `i` (the optional separator backtracks). -/
def tail44 (s : List Char) (i : Nat) : Option Nat :=
  (digitsAt 4 s i).bind fun j =>
    match s.get? j with
    | some c =>
      if isSepCh c then (digitsAt 4 s (j + 1)).orElse (fun _ => digitsAt 4 s j)
      else digitsAt 4 s j
    | none => digitsAt 4 s j

/-- Piece `9\s*\d{4}[-\s]?\d{4}` at index `i`. -/
def nineTail (s : List Char) (i : Nat) : Option Nat :=
  if s.get? i = some '9' then tail44 s (runEnd isSpaceCh s (i + 1)) else none

/-- Pattern `\(19\)\s*9\s*\d{4}[-\s]?\d{4}`. -/
def p1At (s : List Char) (i : Nat) : Option Nat :=
  (litAt "(19)".data s i).bind fun j => nineTail s (runEnd isSpaceCh s j)

/-- Pattern `19\s*9\s*\d{4}[-\s]?\d{4}`. -/
def p2At (s : List Char) (i : Nat) : Option Nat :=
  (litAt "19".data s i).bind fun j => nineTail s (runEnd isSpaceCh s j)

/-- Pattern `\+55\s*19\s*9\s*\d{4}[-\s]?\d{4}`. -/
def p3At (s : List Char) (i : Nat) : Option Nat :=
  (litAt "+55".data s i).bind fun j => p2At s (runEnd isSpaceCh s j)

/-- Pattern `55\s*19\s*9\s*\d{4}[-\s]?\d{4}`. -/
def p4At (s : List Char) (i : Nat) : Option Nat :=
  (litAt "55".data s i).bind fun j => p2At s (runEnd isSpaceCh s j)

/-- Python `re.findall` scan for an anchored matcher (non-overlapping, left to
right, resume at the end of each match; all these matchers consume at
least one character). -/
def scanAllM (m : List Char → Nat → Option Nat) (s : List Char) :
    Nat → Nat → List (List Char)
  | 0, _ => []
  | Nat.succ fuel, i =>
    match m s i with
    | some e => ((s.drop i).take (e - i)) :: scanAllM m s fuel e
    | none => if i < s.length then scanAllM m s fuel (i + 1) else []

def findAllM (m : List Char → Nat → Option Nat) (s : List Char) : List (List Char) :=
  scanAllM m s (s.length + 1) 0

/-- The alternation `(whatsapp|celular|contato|telefone)` in source order. -/
def ctxKeywords : List (List Char) :=
  ["whatsapp".data, "celular".data, "contato".data, "telefone".data]

/-- One match of the context pattern
`(?i)(whatsapp|celular|contato|telefone)[\s\S]{0,50}9\s*\d{4}[-\s]?\d{4}`
anchored at `i`: the keyword comparison is case-insensitive and the
`{0,50}` gap backtracks from the largest width.  Returns the end of the
whole match and the capture (the keyword as it appears in the content). -/
def ctxMatchAt (s : List Char) (i : Nat) : Option (Nat × List Char) :=
  ctxKeywords.findSome? fun kw =>
    if (s.drop i).length ≥ kw.length ∧ lowerL ((s.drop i).take kw.length) = kw then
      let j := i + kw.length
      ((downFromTo (min 50 (s.length - j)) 0).findSome? fun gap =>
        nineTail s (j + gap)).map fun e => (e, (s.drop i).take kw.length)
    else none

/-- Python `re.findall(whatsapp_context, content)`: with one group in the pattern
the result list holds the group captures. -/
def ctxScan (s : List Char) : Nat → Nat → List (List Char)
  | 0, _ => []
  | Nat.succ fuel, i =>
    match ctxMatchAt s i with
    | some (e, g) => g :: ctxScan s fuel e
    | none => if i < s.length then ctxScan s fuel (i + 1) else []

def ctxFindAllGroups (s : List Char) : List (List Char) :=
  ctxScan s (s.length + 1) 0

/-- Python `re.search(r"9\s*\d{4}[-\s]?\d{4}", text)`: the leftmost match. -/
def searchNine (text : List Char) : Option (List Char) :=
  (List.range (text.length + 1)).findSome? fun i =>
    (nineTail text i).map fun e => (text.drop i).take (e - i)

/-- Embeds `FacebookScraper._format_whatsapp`. -/
def formatWhatsappL (phone : List Char) : List Char :=
  let p := onlyDigits phone
  if p.length ≥ 11 then
    let q := p.drop (p.length - 11)
    '(' :: q.take 2 ++ ')' :: ' ' :: (q.drop 2).take 5 ++ '-' :: q.drop 7
  else if p.length = 9 then
    '(' :: '1' :: '9' :: ')' :: ' ' :: p.take 5 ++ '-' :: p.drop 5
  else p

def formatWhatsapp (phone : String) : String := String.mk (formatWhatsappL phone.data)

/-- The validity check `len(phone) >= 11 and phone[-11:-9] == "19" and
phone[-10] == "9"` on the digit string of a match. -/
def validMobileDigits (p : List Char) : Bool :=
  p.length ≥ 11 && ((p.drop (p.length - 11)).take 2 == "19".data) &&
    (p.get? (p.length - 10) == some '9')

/-- One iteration of the `for pattern in phone_patterns` loop body. -/
def tryPattern (m : List Char → Nat → Option Nat) (content : List Char) :
    Option (List Char) :=
  match findAllM m content with
  | [] => none
  | mt :: _ =>
    let phone := onlyDigits mt
    if validMobileDigits phone then
      some (formatWhatsappL (phone.drop (phone.length - 11)))
    else none

/-- Embeds `FacebookScraper._extract_whatsapp`. -/
def extractWhatsappL (content : List Char) : Option (List Char) :=
  (tryPattern p1At content).orElse fun _ =>
  (tryPattern p2At content).orElse fun _ =>
  (tryPattern p3At content).orElse fun _ =>
  (tryPattern p4At content).orElse fun _ =>
  match ctxFindAllGroups content with
  | [] => none
  | g :: _ =>
    match searchNine g with
    | some num =>
      let phone := onlyDigits num
      if phone.length = 9 then
        some ("(19) ".data ++ formatWhatsappL ("19".data ++ phone))
      else none
    | none => none

def extractWhatsapp (content : String) : Option String :=
  (extractWhatsappL content.data).map String.mk

/-- The domain of an email match: the text after its `@`. -/
def domainOf (e : List Char) : List Char := (e.dropWhile (· ≠ '@')).drop 1

/-- Modelled from the spec: "the first substring matching a standard email
grammar whose domain is not in a fixed exclusion set ...; normalized to
lowercase" — exclusion by set membership of the match's domain, for
comparison with the code's behaviour. -/
def specExtractEmail (content : List Char) : Option (List Char) :=
  ((emailFindAll content).find?
    (fun e => !(excludedDomains.contains (lowerL (domainOf e))))).map lowerL

/-! ### `AsyncCSVProcessor._save_to_database` (async_processor.py lines 297-329;
`CSVProcessor._save_to_database` is line-for-line the same logic)

```python
existing = (self.db_session.query(self.model_class)
            .filter_by(nome_empresa=data["nome_empresa"]).first())
if existing:
    for key, value in data.items():
        if key != "nome_empresa" and value is not None:
            setattr(existing, key, value)
else:
    new_record = self.model_class(**data)
    self.db_session.add(new_record)
self.db_session.commit()
```

The table is modelled as a list of rows in insertion order; `.first()` is
the first row whose `nome_empresa` equals the incoming one.
-/

structure CompanyRecord where
  nome_empresa : String
  telefone : Option String
  site : Option String
  facebook_link : Option String
  email : Option String
  celular_whatsapp : Option String
deriving DecidableEq

/-- The `setattr` loop: each non-`None` incoming field overwrites, the
identity key is skipped. -/
def mergeRecord (existing incoming : CompanyRecord) : CompanyRecord where
  nome_empresa := existing.nome_empresa
  telefone := incoming.telefone.orElse fun _ => existing.telefone
  site := incoming.site.orElse fun _ => existing.site
  facebook_link := incoming.facebook_link.orElse fun _ => existing.facebook_link
  email := incoming.email.orElse fun _ => existing.email
  celular_whatsapp := incoming.celular_whatsapp.orElse fun _ => existing.celular_whatsapp

/-- Embeds `_save_to_database`: update the first row with the same subject name in
place, or append a new row. -/
def saveToDatabase : List CompanyRecord → CompanyRecord → List CompanyRecord
  | [], data => [data]
  | r :: rest, data =>
    if r.nome_empresa = data.nome_empresa then mergeRecord r data :: rest
    else r :: saveToDatabase rest data

/-- Row lookup by exact subject name (`filter_by(...).first()`). -/
def findRecord (db : List CompanyRecord) (name : String) : Option CompanyRecord :=
  db.find? (fun r => r.nome_empresa == name)

/-- A stored row with a populated phone, for concrete upsert runs. -/
def rowExample : CompanyRecord :=
  ⟨"Padaria Central", some "(19) 3806-1234", none, none, none, none⟩

/-- An incoming record for the same subject whose phone extraction found
nothing but whose site extraction found a value. -/
def dataExample : CompanyRecord :=
  ⟨"Padaria Central", none, some "https://padaria.example", none, none, none⟩

/-! ### Challenge-gate control flow of `GoogleScraper.search_company`
(google_scraper.py lines 129-147 and 213-242)

```python
if captcha_detected:
    self._captcha_detected = True
    if self.captcha_callback:
        await self.captcha_callback(nome_empresa)
    if self.headless:
        raise CaptchaDetectedException(...)
    await self._wait_for_human_intervention(page, nome_empresa)
    self._captcha_detected = False
...
async def _wait_for_human_intervention(self, page, nome_empresa):
    try:
        await page.wait_for_selector("div#search", timeout=300000)
    except PlaywrightTimeout:
        raise CaptchaDetectedException("Timeout ...")
```

The rendering environment is abstracted to two booleans: whether the
navigation landed on a challenge page, and whether the `div#search`
results container reappears within the 300000 ms wait bound.  The flow is
recorded as an event trace plus whether `CaptchaDetectedException` was
raised out of the call.
-/

inductive GateEv where
  | notifyCaller (nome : String)
  | waitForSelector (selector : String) (timeoutMs : Nat)
  | resolved
  | raiseChallenge
deriving DecidableEq

structure GateEnv where
  detected : Bool
  selectorWithinBound : Bool
deriving DecidableEq

/-- The challenge branch of `search_company` (plus
`_wait_for_human_intervention`): returns the emitted events in order and
whether the call raised `CaptchaDetectedException`. -/
def challengeFlow (headless hasCallback : Bool) (env : GateEnv) (nome : String) :
    List GateEv × Bool :=
  if env.detected then
    let evs := if hasCallback then [GateEv.notifyCaller nome] else []
    if headless then (evs ++ [GateEv.raiseChallenge], true)
    else
      let evs := evs ++ [GateEv.waitForSelector "div#search" 300000]
      if env.selectorWithinBound then (evs ++ [GateEv.resolved], false)
      else (evs ++ [GateEv.raiseChallenge], true)
  else ([], false)

/-! ### The per-subject pipeline loop, `AsyncCSVProcessor.process_all`
(async_processor.py lines 114-220) with `_process_company` (236-272) and
the error routing of `GoogleScraper.search_company` (lines 94-167)

Each subject's environment abstracts what the adversarial page does:

```python
try:                                   # search_company
    await page.goto(...)               # navFails: raises here
    captcha_detected = await self._check_for_captcha(page)   # captcha
    if captcha_detected:  ...          # headless -> raise; else wait
    result["telefone"] = ...           # telefone / site / facebook_link
except CaptchaDetectedException:
    raise
except Exception as e:
    logger.error(...)                  # swallowed: partial result returned
finally:
    await page.close()
return result
```

`fbFails` models a failing Facebook enrichment (swallowed, both enrichment
fields absent), and `saveFails` models `_save_to_database` raising — the
generic-exception path of the loop body. -/

structure SubjectEnv where
  navFails : Bool
  captcha : Bool
  selectorReappears : Bool
  telefone : Option String
  site : Option String
  facebook_link : Option String
  fbFails : Bool
  email : Option String
  celular_whatsapp : Option String
  saveFails : Bool
deriving DecidableEq

/-- The `search_company` error routing: a navigation failure is swallowed by the
generic handler and the untouched all-`None` result is returned; a
challenge raises in headless mode, and in attended mode raises only when
the wait for `div#search` times out. -/
def searchCompany (headless : Bool) (e : SubjectEnv) :
    Except Unit (Option String × Option String × Option String) :=
  if e.navFails then .ok (none, none, none)
  else if e.captcha then
    if headless then .error ()
    else if e.selectorReappears then .ok (e.telefone, e.site, e.facebook_link)
    else .error ()
  else .ok (e.telefone, e.site, e.facebook_link)

/-- Embeds `_process_company`: enrichment runs only when a Facebook link was found;
its failures are swallowed, leaving both enrichment fields `None`. -/
def processCompany (headless : Bool) (nome : String) (e : SubjectEnv) :
    Except Unit CompanyRecord :=
  (searchCompany headless e).map fun r =>
    { nome_empresa := nome
      telefone := r.1
      site := r.2.1
      facebook_link := r.2.2
      email := if r.2.2.isSome && !e.fbFails then e.email else none
      celular_whatsapp := if r.2.2.isSome && !e.fbFails then e.celular_whatsapp else none }

/-- Check `has_data = any([...])` (lines 167-175). -/
def hasData (r : CompanyRecord) : Bool :=
  r.telefone.isSome || r.site.isSome || r.facebook_link.isSome ||
    r.email.isSome || r.celular_whatsapp.isSome

structure RunStats where
  total : Nat
  processadas : Nat
  com_dados : Nat
  sem_dados : Nat
  erros : Nat
  captchas : Nat
deriving DecidableEq

inductive PipeEv where
  | start (nome : String)
  | progress (cur total pct : Nat)
  | complete (nome : String)
  | errorEvt (nome : String)
  | sleepJitter (lo hi : Nat)
deriving DecidableEq

/-- One iteration of the `for idx, nome_empresa in enumerate(companies, 1)`
loop body: the success path saves, counts `processadas` and
`com_dados`/`sem_dados`, emits the completion event and then the mandatory
3-7 s jitter sleep; `CaptchaDetectedException` is counted in `captchas`
and `continue`s; any other exception is counted in `erros` and the loop
proceeds.  (Float percentage truncation is modelled by `Nat` division.) -/
def subjectStep (headless : Bool) (total idx : Nat) (nome : String) (e : SubjectEnv)
    (stats : RunStats) : RunStats × List PipeEv :=
  let evs := [PipeEv.start nome, PipeEv.progress idx total (idx * 100 / total)]
  match processCompany headless nome e with
  | .error _ =>
    ({ stats with captchas := stats.captchas + 1 }, evs ++ [PipeEv.errorEvt nome])
  | .ok record =>
    if e.saveFails then
      ({ stats with erros := stats.erros + 1 }, evs ++ [PipeEv.errorEvt nome])
    else
      let stats1 := { stats with processadas := stats.processadas + 1 }
      let stats2 :=
        if hasData record then { stats1 with com_dados := stats1.com_dados + 1 }
        else { stats1 with sem_dados := stats1.sem_dados + 1 }
      (stats2, evs ++ [PipeEv.complete nome, PipeEv.sleepJitter 3 7])

/-- The subject loop: every subject is attempted in order; no outcome
breaks out of the loop. -/
def processLoop (headless : Bool) (total : Nat) :
    Nat → List (String × SubjectEnv) → RunStats → RunStats × List PipeEv
  | _, [], stats => (stats, [])
  | idx, (nome, e) :: rest, stats =>
    let r1 := subjectStep headless total idx nome e stats
    let r2 := processLoop headless total (idx + 1) rest r1.1
    (r2.1, r1.2 ++ r2.2)

/-- Embeds `process_all`: statistics start at zero with `total = len(companies)`. -/
def processAll (headless : Bool) (companies : List (String × SubjectEnv)) :
    RunStats × List PipeEv :=
  processLoop headless companies.length 1 companies ⟨companies.length, 0, 0, 0, 0, 0⟩

/-- The unique terminal bucket of a subject, read off the loop body's case
analysis. -/
inductive Bucket where
  | withData
  | withoutData
  | errorB
  | challenge
deriving DecidableEq

def bucketOf (headless : Bool) (nome : String) (e : SubjectEnv) : Bucket :=
  match processCompany headless nome e with
  | .error _ => .challenge
  | .ok r => if e.saveFails then .errorB else if hasData r then .withData else .withoutData

/-- The buckets of the success path. -/
def isSuccess : Bucket → Bool
  | .withData => true
  | .withoutData => true
  | .errorB => false
  | .challenge => false

/-- Statistics increment corresponding to one terminal bucket. -/
def applyBucket : Bucket → RunStats → RunStats
  | .withData, s => { s with processadas := s.processadas + 1, com_dados := s.com_dados + 1 }
  | .withoutData, s => { s with processadas := s.processadas + 1, sem_dados := s.sem_dados + 1 }
  | .errorB, s => { s with erros := s.erros + 1 }
  | .challenge, s => { s with captchas := s.captchas + 1 }

/-- The event segment one subject contributes to the run trace. -/
def subjectEvs (headless : Bool) (total idx : Nat) (nome : String) (e : SubjectEnv) :
    List PipeEv :=
  if isSuccess (bucketOf headless nome e) then
    [PipeEv.start nome, PipeEv.progress idx total (idx * 100 / total),
     PipeEv.complete nome, PipeEv.sleepJitter 3 7]
  else
    [PipeEv.start nome, PipeEv.progress idx total (idx * 100 / total), PipeEv.errorEvt nome]

/-- Concatenation of all subject segments, with the running 1-based index. -/
def loopEvs (headless : Bool) (total : Nat) :
    Nat → List (String × SubjectEnv) → List PipeEv
  | _, [] => []
  | idx, (nome, e) :: rest =>
    subjectEvs headless total idx nome e ++ loopEvs headless total (idx + 1) rest

/-- The subjects a trace shows as started, in order. -/
def startsOf (tr : List PipeEv) : List String :=
  tr.filterMap fun ev =>
    match ev with
    | PipeEv.start n => some n
    | _ => none

/-- Scan for a start-to-start advance with no jitter sleep in between; the
flag records being past a start with no sleep seen yet. -/
def awsFrom (flag : Bool) : List PipeEv → Bool
  | [] => false
  | PipeEv.start _ :: rest => if flag then true else awsFrom true rest
  | PipeEv.sleepJitter _ _ :: rest => awsFrom false rest
  | _ :: rest => awsFrom flag rest

/-- Whether a trace ever advances from one subject to the next without an
intervening jitter sleep. -/
def advanceWithoutSleep (tr : List PipeEv) : Bool := awsFrom false tr

/-- Number of jitter sleeps in a trace. -/
def countSleeps (tr : List PipeEv) : Nat :=
  tr.countP fun ev =>
    match ev with
    | PipeEv.sleepJitter _ _ => true
    | _ => false

/-- Number of subjects falling in a given terminal bucket. -/
def bucketCount (headless : Bool) (b : Bucket) : List (String × SubjectEnv) → Nat
  | [] => 0
  | p :: rest =>
    (if bucketOf headless p.1 p.2 = b then 1 else 0) + bucketCount headless b rest

/-- A subject environment whose search succeeds and finds a phone. -/
def envOk : SubjectEnv :=
  ⟨false, false, false, some "(19) 3806-1234", none, none, false, none, none, false⟩

/-- A subject whose database save raises (the generic-error path). -/
def envSaveFail : SubjectEnv := { envOk with saveFails := true }

/-- A subject whose page navigation raises inside the search. -/
def envNavFail : SubjectEnv := { envOk with navFails := true }

/-- A subject that hits an anti-bot challenge. -/
def envCaptcha : SubjectEnv := { envOk with captcha := true }

end ExtractMogi

open ExtractMogi

/-- C5. Phone normalization: after stripping non-digits, a digit string of
length 11 formats to `(DD) DDDDD-DDDD`, length 10 to `(DD) DDDD-DDDD`,
length 9 to `DDDDD-DDDD`, and length 8 to `DDDD-DDDD`; in particular
`"19991234567"` yields `"(19) 99123-4567"`. -/
theorem C5_phone_formatting (s : List Char) :
    (let d := onlyDigits s
     (d.length = 11 →
        formatPhoneL s = '(' :: d.take 2 ++ ')' :: ' ' :: (d.drop 2).take 5 ++ '-' :: d.drop 7) ∧
     (d.length = 10 →
        formatPhoneL s = '(' :: d.take 2 ++ ')' :: ' ' :: (d.drop 2).take 4 ++ '-' :: d.drop 6) ∧
     (d.length = 9 → formatPhoneL s = d.take 5 ++ '-' :: d.drop 5) ∧
     (d.length = 8 → formatPhoneL s = d.take 4 ++ '-' :: d.drop 4)) ∧
    formatPhone "19991234567" = "(19) 99123-4567" := by
  refine ⟨⟨?_, ?_, ?_, ?_⟩, by decide⟩ <;>
    intro h <;> simp [formatPhoneL, h]

/-- No `?` survives `cleanUrl`. -/
theorem cleanUrl_not_mem_qmark (u : List Char) : '?' ∉ cleanUrl u := by
  intro hmem
  have h1 : '?' ∈ u.takeWhile (· ≠ '?') := (List.takeWhile_sublist _).mem hmem
  simpa using List.mem_takeWhile_imp h1

/-- No `#` survives `cleanUrl`. -/
theorem cleanUrl_not_mem_hash (u : List Char) : '#' ∉ cleanUrl u := by
  intro hmem
  simpa using List.mem_takeWhile_imp hmem

/-- C10. Every link returned by the social-link extraction is the unwrapped
href truncated at the first `?` and first `#`, and therefore contains no
query string, no fragment, and neither `/posts/` nor `/p/`. -/
theorem C10_social_link_normalization (hrefs : List (List Char)) (link : List Char)
    (h : extractFacebookLinkL hrefs = some link) :
    (∃ href ∈ hrefs, ∃ u, unwrapHref href = some u ∧ link = cleanUrl u) ∧
    '?' ∉ link ∧ '#' ∉ link ∧
    containsSub link "/posts/".data = false ∧ containsSub link "/p/".data = false := by
  induction hrefs with
  | nil => simp [extractFacebookLinkL] at h
  | cons href rest ih =>
    rw [extractFacebookLinkL] at h
    split at h
    · obtain ⟨⟨hr, hmem, u, hu, hlink⟩, hrest⟩ := ih h
      exact ⟨⟨hr, List.mem_cons_of_mem _ hmem, u, hu, hlink⟩, hrest⟩
    · split at h
      · obtain ⟨⟨hr, hmem, u, hu, hlink⟩, hrest⟩ := ih h
        exact ⟨⟨hr, List.mem_cons_of_mem _ hmem, u, hu, hlink⟩, hrest⟩
      · rename_i hcase u hu
        split at h
        · dsimp only at h
          split at h
          · rename_i hguard hpost
            obtain ⟨hposts, hp⟩ := by simpa using hpost
            obtain rfl := by simpa using h
            exact ⟨⟨href, List.mem_cons_self _ _, u, hu, rfl⟩,
              cleanUrl_not_mem_qmark u, cleanUrl_not_mem_hash u, hposts, hp⟩
          · obtain ⟨⟨hr, hmem, u₂, hu₂, hlink⟩, hrest⟩ := ih h
            exact ⟨⟨hr, List.mem_cons_of_mem _ hmem, u₂, hu₂, hlink⟩, hrest⟩
        · obtain ⟨⟨hr, hmem, u₂, hu₂, hlink⟩, hrest⟩ := ih h
          exact ⟨⟨hr, List.mem_cons_of_mem _ hmem, u₂, hu₂, hlink⟩, hrest⟩

/-- Witness for C10: a wrapped redirect href carrying both a query string and
a fragment yields the truncated profile URL. -/
theorem C10_social_link_normalization_witness :
    extractFacebookLinkL ["/url?q=https://facebook.com/mypage?ref=abc#sec".data] =
      some "https://facebook.com/mypage".data ∧
    ((∃ href ∈ ["/url?q=https://facebook.com/mypage?ref=abc#sec".data],
        ∃ u, unwrapHref href = some u ∧ "https://facebook.com/mypage".data = cleanUrl u) ∧
      '?' ∉ "https://facebook.com/mypage".data ∧ '#' ∉ "https://facebook.com/mypage".data ∧
      containsSub "https://facebook.com/mypage".data "/posts/".data = false ∧
      containsSub "https://facebook.com/mypage".data "/p/".data = false) :=
  ⟨by decide, C10_social_link_normalization _ _ (by decide)⟩

/-- After an upsert for a stored name, the looked-up row is the merge of the
stored row with the incoming record. -/
theorem findRecord_save (db : List CompanyRecord) (data r : CompanyRecord)
    (h : findRecord db data.nome_empresa = some r) :
    findRecord (saveToDatabase db data) data.nome_empresa = some (mergeRecord r data) := by
  induction db with
  | nil => simp [findRecord] at h
  | cons a rest ih =>
    by_cases hname : a.nome_empresa = data.nome_empresa
    · have hb : (a.nome_empresa == data.nome_empresa) = true := by simp [hname]
      have hr : r = a := by
        simp [findRecord, List.find?, hb] at h
        exact h.symm
      subst hr
      have hb2 : ((mergeRecord r data).nome_empresa == data.nome_empresa) = true := by
        simp [mergeRecord, hname]
      simp [saveToDatabase, hname, findRecord, List.find?, hb2]
    · have hb : (a.nome_empresa == data.nome_empresa) = false := by
        rw [beq_eq_false_iff_ne]
        exact hname
      have h2 : findRecord rest data.nome_empresa = some r := by
        simpa [findRecord, List.find?, hb] using h
      simpa [saveToDatabase, hname, findRecord, List.find?, hb] using ih h2

/-- C1. Monotonic merge on upsert: for a record stored under a subject name
and an incoming record for the same name, each stored field is overwritten
exactly when the incoming field is non-absent, so a populated field is
never cleared by an incoming absent field, and the subject-name identity
field is never modified. -/
theorem C1_monotonic_merge (db : List CompanyRecord) (data r : CompanyRecord)
    (h : findRecord db data.nome_empresa = some r) :
    ∃ r2, findRecord (saveToDatabase db data) data.nome_empresa = some r2 ∧
      r2.nome_empresa = r.nome_empresa ∧
      (data.telefone = none → r2.telefone = r.telefone) ∧
      (∀ v, data.telefone = some v → r2.telefone = some v) ∧
      (data.site = none → r2.site = r.site) ∧
      (∀ v, data.site = some v → r2.site = some v) ∧
      (data.facebook_link = none → r2.facebook_link = r.facebook_link) ∧
      (∀ v, data.facebook_link = some v → r2.facebook_link = some v) ∧
      (data.email = none → r2.email = r.email) ∧
      (∀ v, data.email = some v → r2.email = some v) ∧
      (data.celular_whatsapp = none → r2.celular_whatsapp = r.celular_whatsapp) ∧
      (∀ v, data.celular_whatsapp = some v → r2.celular_whatsapp = some v) := by
  refine ⟨mergeRecord r data, findRecord_save db data r h, rfl,
    ?_, ?_, ?_, ?_, ?_, ?_, ?_, ?_, ?_, ?_⟩
  all_goals first
    | (intro h1; simp [mergeRecord, h1, Option.orElse])
    | (intro v h1; simp [mergeRecord, h1, Option.orElse])

/-- Witness for C1: a stored phone survives an upsert whose phone is absent,
while the absent site is filled in. -/
theorem C1_monotonic_merge_witness :
    findRecord [rowExample] dataExample.nome_empresa = some rowExample ∧
    (∃ r2, findRecord (saveToDatabase [rowExample] dataExample) dataExample.nome_empresa =
        some r2 ∧
      r2.nome_empresa = rowExample.nome_empresa ∧
      (dataExample.telefone = none → r2.telefone = rowExample.telefone) ∧
      (∀ v, dataExample.telefone = some v → r2.telefone = some v) ∧
      (dataExample.site = none → r2.site = rowExample.site) ∧
      (∀ v, dataExample.site = some v → r2.site = some v) ∧
      (dataExample.facebook_link = none → r2.facebook_link = rowExample.facebook_link) ∧
      (∀ v, dataExample.facebook_link = some v → r2.facebook_link = some v) ∧
      (dataExample.email = none → r2.email = rowExample.email) ∧
      (∀ v, dataExample.email = some v → r2.email = some v) ∧
      (dataExample.celular_whatsapp = none → r2.celular_whatsapp = rowExample.celular_whatsapp) ∧
      (∀ v, dataExample.celular_whatsapp = some v → r2.celular_whatsapp = some v)) :=
  ⟨by decide, C1_monotonic_merge [rowExample] dataExample rowExample (by decide)⟩

/-- C8. On content where no full locality-scoped pattern matches but the
keyword `Whatsapp` is followed within the window by the 9-digit mobile
number `9 8765-4321`, the extraction returns nothing: the context
`re.findall` carries a capture group, so it yields only the keyword, and
the number search inside the keyword fails.  Had the synthesis line been
reached, it would prefix the area code twice: the expression it computes
on the 9-digit match is `"(19) (19) 98765-4321"`, not `"(19) 98765-4321"`. -/
theorem C8_whatsapp_fallback_dead :
    extractWhatsappL "Whatsapp: 9 8765-4321".data = none ∧
    (tryPattern p1At "Whatsapp: 9 8765-4321".data = none ∧
      tryPattern p2At "Whatsapp: 9 8765-4321".data = none ∧
      tryPattern p3At "Whatsapp: 9 8765-4321".data = none ∧
      tryPattern p4At "Whatsapp: 9 8765-4321".data = none) ∧
    ctxFindAllGroups "Whatsapp: 9 8765-4321".data = ["Whatsapp".data] ∧
    searchNine "Whatsapp".data = none ∧
    "(19) ".data ++ formatWhatsappL ("19".data ++ "987654321".data) =
      "(19) (19) 98765-4321".data := by
  exact ⟨by decide, ⟨by decide, by decide, by decide, by decide⟩, by decide, by decide, by decide⟩

/-- Structure of a successful `firstOkEmail`: the result is the lowercase of
the first non-excluded match, every earlier match being excluded. -/
theorem firstOkEmail_eq_some (l : List (List Char)) (e : List Char)
    (h : firstOkEmail l = some e) :
    ∃ pre m suf, l = pre ++ m :: suf ∧
      (∀ x ∈ pre, isExcludedEmail x = true) ∧
      isExcludedEmail m = false ∧ e = lowerL m := by
  induction l with
  | nil => simp [firstOkEmail] at h
  | cons a rest ih =>
    rw [firstOkEmail] at h
    split at h
    · obtain ⟨pre, m, suf, hsplit, hpre, hm, he⟩ := ih h
      refine ⟨a :: pre, m, suf, by simp [hsplit], ?_, hm, he⟩
      intro x hx
      rcases List.mem_cons.mp hx with hx | hx
      · simpa [hx] using ‹isExcludedEmail a = true›
      · exact hpre x hx
    · rename_i hnotex
      refine ⟨[], a, rest, by simp, by simp, by simpa using hnotex, ?_⟩
      simpa using h.symm

/-- C9 (counterexample). The claim says the extracted email is the first
match whose domain is not in the exclusion set.  On content whose first
email match is `facebook.comx@gmail.com` — a match whose domain
`gmail.com` is not in the exclusion set — the code nevertheless skips it,
because the exclusion test checks whether any excluded domain occurs as a
substring anywhere in the lowercased email. -/
theorem C9_email_exclusion_counterexample :
    extractEmail "facebook.comx@gmail.com contato@padaria.com.br".data =
      some "contato@padaria.com.br".data ∧
    specExtractEmail "facebook.comx@gmail.com contato@padaria.com.br".data =
      some "facebook.comx@gmail.com".data ∧
    extractEmail "facebook.comx@gmail.com contato@padaria.com.br".data ≠
      specExtractEmail "facebook.comx@gmail.com contato@padaria.com.br".data := by
  exact ⟨by decide, by decide, by decide⟩

/-- C9 (amended). The extracted email is the lowercase of the first
email-grammar match that does not contain any excluded domain as a
substring (case-insensitively); every earlier match contains one.  In
particular content with `support@facebook.com` and `contato@padaria.com.br`
yields `contato@padaria.com.br`. -/
theorem C9_email_exclusion (c e : List Char) (h : extractEmail c = some e) :
    (∃ pre m suf, emailFindAll c = pre ++ m :: suf ∧
      (∀ x ∈ pre, isExcludedEmail x = true) ∧
      isExcludedEmail m = false ∧ e = lowerL m) ∧
    extractEmail "Entre em contato: support@facebook.com ou contato@padaria.com.br".data =
      some "contato@padaria.com.br".data :=
  ⟨firstOkEmail_eq_some _ _ h, by decide⟩

/-- Witness for C9 on the spec's own example content. -/
theorem C9_email_exclusion_witness :
    extractEmail "Entre em contato: support@facebook.com ou contato@padaria.com.br".data =
      some "contato@padaria.com.br".data ∧
    ((∃ pre m suf,
        emailFindAll "Entre em contato: support@facebook.com ou contato@padaria.com.br".data =
          pre ++ m :: suf ∧
        (∀ x ∈ pre, isExcludedEmail x = true) ∧
        isExcludedEmail m = false ∧ "contato@padaria.com.br".data = lowerL m) ∧
      extractEmail "Entre em contato: support@facebook.com ou contato@padaria.com.br".data =
        some "contato@padaria.com.br".data) :=
  ⟨by decide, C9_email_exclusion _ _ (by decide)⟩

/-- Witness for C5 at the concrete input `"19991234567"`. -/
theorem C5_phone_formatting_witness :
    (onlyDigits "19991234567".data).length = 11 ∧
    formatPhoneL "19991234567".data =
      '(' :: (onlyDigits "19991234567".data).take 2 ++ ')' :: ' ' ::
        ((onlyDigits "19991234567".data).drop 2).take 5 ++ '-' ::
        (onlyDigits "19991234567".data).drop 7 := by
  exact ⟨by decide, (C5_phone_formatting "19991234567".data).1.1 (by decide)⟩

/-- The loop body's statistics update is the increment of the subject's
terminal bucket. -/
theorem subjectStep_fst (headless : Bool) (total idx : Nat) (nome : String)
    (e : SubjectEnv) (stats : RunStats) :
    (subjectStep headless total idx nome e stats).1 =
      applyBucket (bucketOf headless nome e) stats := by
  unfold subjectStep bucketOf
  cases hpc : processCompany headless nome e with
  | error u => simp [applyBucket]
  | ok r =>
    by_cases hs : e.saveFails
    · simp [hs, applyBucket]
    · by_cases hd : hasData r <;> simp [hs, hd, applyBucket]

/-- The loop body's event output is the subject's trace segment. -/
theorem subjectStep_snd (headless : Bool) (total idx : Nat) (nome : String)
    (e : SubjectEnv) (stats : RunStats) :
    (subjectStep headless total idx nome e stats).2 =
      subjectEvs headless total idx nome e := by
  unfold subjectStep subjectEvs bucketOf
  cases hpc : processCompany headless nome e with
  | error u => simp [isSuccess]
  | ok r =>
    by_cases hs : e.saveFails
    · simp [hs, isSuccess]
    · by_cases hd : hasData r <;> simp [hs, hd, isSuccess]

/-- The loop folds the bucket increments over the subjects. -/
theorem processLoop_fst (headless : Bool) (total : Nat)
    (cs : List (String × SubjectEnv)) (idx : Nat) (stats : RunStats) :
    (processLoop headless total idx cs stats).1 =
      cs.foldl (fun s p => applyBucket (bucketOf headless p.1 p.2) s) stats := by
  induction cs generalizing idx stats with
  | nil => rfl
  | cons p rest ih =>
    obtain ⟨nome, e⟩ := p
    simp [processLoop, subjectStep_fst, ih]

/-- The loop's trace is the concatenation of the subject segments. -/
theorem processLoop_snd (headless : Bool) (total : Nat)
    (cs : List (String × SubjectEnv)) (idx : Nat) (stats : RunStats) :
    (processLoop headless total idx cs stats).2 = loopEvs headless total idx cs := by
  induction cs generalizing idx stats with
  | nil => rfl
  | cons p rest ih =>
    obtain ⟨nome, e⟩ := p
    simp [processLoop, loopEvs, subjectStep_snd, ih]

/-- Field-by-field value of the bucket fold: each statistic counts the
subjects of its bucket, and `total` is never touched by the loop. -/
theorem foldl_applyBucket (headless : Bool) (cs : List (String × SubjectEnv))
    (stats : RunStats) :
    (cs.foldl (fun s p => applyBucket (bucketOf headless p.1 p.2) s) stats).total =
        stats.total ∧
    (cs.foldl (fun s p => applyBucket (bucketOf headless p.1 p.2) s) stats).processadas =
        stats.processadas + (bucketCount headless .withData cs +
          bucketCount headless .withoutData cs) ∧
    (cs.foldl (fun s p => applyBucket (bucketOf headless p.1 p.2) s) stats).com_dados =
        stats.com_dados + bucketCount headless .withData cs ∧
    (cs.foldl (fun s p => applyBucket (bucketOf headless p.1 p.2) s) stats).sem_dados =
        stats.sem_dados + bucketCount headless .withoutData cs ∧
    (cs.foldl (fun s p => applyBucket (bucketOf headless p.1 p.2) s) stats).erros =
        stats.erros + bucketCount headless .errorB cs ∧
    (cs.foldl (fun s p => applyBucket (bucketOf headless p.1 p.2) s) stats).captchas =
        stats.captchas + bucketCount headless .challenge cs := by
  induction cs generalizing stats with
  | nil => simp [bucketCount]
  | cons p rest ih =>
    obtain ⟨h1, h2, h3, h4, h5, h6⟩ := ih (applyBucket (bucketOf headless p.1 p.2) stats)
    simp only [List.foldl_cons]
    cases hb : bucketOf headless p.1 p.2 <;>
      rw [hb] at h1 h2 h3 h4 h5 h6 <;>
      simp only [hb, h1, h2, h3, h4, h5, h6] <;>
      simp [applyBucket, bucketCount, hb] <;>
      omega

/-- The four buckets partition the subjects. -/
theorem bucketCount_partition (headless : Bool) (cs : List (String × SubjectEnv)) :
    bucketCount headless .withData cs + bucketCount headless .withoutData cs +
      bucketCount headless .errorB cs + bucketCount headless .challenge cs =
      cs.length := by
  induction cs with
  | nil => simp [bucketCount]
  | cons p rest ih =>
    cases hb : bucketOf headless p.1 p.2 <;> simp [bucketCount, hb] <;> omega

/-- A subject in a bucket makes that bucket's count positive. -/
theorem bucketCount_pos (headless : Bool) (b : Bucket)
    (cs : List (String × SubjectEnv)) (p : String × SubjectEnv)
    (hmem : p ∈ cs) (hb : bucketOf headless p.1 p.2 = b) :
    1 ≤ bucketCount headless b cs := by
  induction cs with
  | nil => cases hmem
  | cons q rest ih =>
    rcases List.mem_cons.mp hmem with hq | hq
    · subst hq
      simp [bucketCount, hb]
    · have := ih hq
      unfold bucketCount
      omega

theorem startsOf_append (l1 l2 : List PipeEv) :
    startsOf (l1 ++ l2) = startsOf l1 ++ startsOf l2 := by
  simp [startsOf, List.filterMap_append]

theorem countSleeps_append (l1 l2 : List PipeEv) :
    countSleeps (l1 ++ l2) = countSleeps l1 + countSleeps l2 := by
  simp [countSleeps, List.countP_append]

/-- The trace starts every subject, in source order. -/
theorem startsOf_loopEvs (headless : Bool) (total : Nat)
    (cs : List (String × SubjectEnv)) (idx : Nat) :
    startsOf (loopEvs headless total idx cs) = cs.map Prod.fst := by
  induction cs generalizing idx with
  | nil => rfl
  | cons p rest ih =>
    obtain ⟨nome, e⟩ := p
    rw [loopEvs, startsOf_append, ih (idx + 1)]
    by_cases hsucc : isSuccess (bucketOf headless nome e) <;>
      simp [subjectEvs, hsucc, startsOf]

/-- Exactly the success segments carry a jitter sleep. -/
theorem countSleeps_loopEvs (headless : Bool) (total : Nat)
    (cs : List (String × SubjectEnv)) (idx : Nat) :
    countSleeps (loopEvs headless total idx cs) =
      bucketCount headless .withData cs + bucketCount headless .withoutData cs := by
  induction cs generalizing idx with
  | nil => rfl
  | cons p rest ih =>
    obtain ⟨nome, e⟩ := p
    rw [loopEvs, countSleeps_append, ih (idx + 1)]
    cases hb : bucketOf headless nome e <;>
      simp [subjectEvs, hb, isSuccess, countSleeps, List.countP_cons, bucketCount] <;>
      omega

/-- C2 (counterexample). The claim's identity `withData + withoutData +
errors = processed` fails on a one-subject run whose database save raises:
the loop counts the subject in `erros` but `processadas` is only
incremented on the success path, so the statistics end with
`erros = 1` and `processadas = 0`. -/
theorem C2_classification_counterexample :
    ¬((processAll true [("Loja A", envSaveFail)]).1.com_dados +
        (processAll true [("Loja A", envSaveFail)]).1.sem_dados +
        (processAll true [("Loja A", envSaveFail)]).1.erros =
        (processAll true [("Loja A", envSaveFail)]).1.processadas ∧
      (processAll true [("Loja A", envSaveFail)]).1.processadas ≤
        (processAll true [("Loja A", envSaveFail)]).1.total) := by
  decide

/-- C2 (amended). Classification conservation as the code implements it:
each subject enters exactly one terminal bucket, `processed` counts only
the success buckets, so `withData + withoutData = processed`,
`processed + errors + challenges = total`, and `processed ≤ total`. -/
theorem C2_classification_conservation (headless : Bool)
    (companies : List (String × SubjectEnv)) :
    (processAll headless companies).1.com_dados +
        (processAll headless companies).1.sem_dados =
      (processAll headless companies).1.processadas ∧
    (processAll headless companies).1.processadas +
        (processAll headless companies).1.erros +
        (processAll headless companies).1.captchas =
      (processAll headless companies).1.total ∧
    (processAll headless companies).1.processadas ≤
      (processAll headless companies).1.total := by
  obtain ⟨h1, h2, h3, h4, h5, h6⟩ :=
    foldl_applyBucket headless companies ⟨companies.length, 0, 0, 0, 0, 0⟩
  have hpart := bucketCount_partition headless companies
  simp only [processAll, processLoop_fst, h1, h2, h3, h4, h5, h6]
  omega

/-- C3. Challenge non-fatality: when subject `k` ends in the challenge
bucket, the run still completes with `challenges ≥ 1` and the trace shows
every subject of the list — including those after `k` — started in source
order. -/
theorem C3_challenge_nonfatality (headless : Bool)
    (companies : List (String × SubjectEnv)) (k : Nat) (hk : k < companies.length)
    (hch : bucketOf headless (companies.get ⟨k, hk⟩).1 (companies.get ⟨k, hk⟩).2 =
      Bucket.challenge) :
    1 ≤ (processAll headless companies).1.captchas ∧
    startsOf (processAll headless companies).2 = companies.map Prod.fst := by
  constructor
  · obtain ⟨h1, h2, h3, h4, h5, h6⟩ :=
      foldl_applyBucket headless companies ⟨companies.length, 0, 0, 0, 0, 0⟩
    have hpos := bucketCount_pos headless Bucket.challenge companies
      (companies.get ⟨k, hk⟩) (companies.get_mem k hk) hch
    simp only [processAll, processLoop_fst, h6]
    omega
  · simp only [processAll, processLoop_snd, startsOf_loopEvs]

/-- Witness for C3: a three-subject run whose middle subject hits a
challenge still starts all three subjects. -/
theorem C3_challenge_nonfatality_witness :
    (1 : Nat) < 3 ∧
    bucketOf true ([("Loja A", envOk), ("Loja B", envCaptcha), ("Loja C", envOk)].get
        ⟨1, by decide⟩).1
      ([("Loja A", envOk), ("Loja B", envCaptcha), ("Loja C", envOk)].get ⟨1, by decide⟩).2 =
      Bucket.challenge ∧
    1 ≤ (processAll true [("Loja A", envOk), ("Loja B", envCaptcha), ("Loja C", envOk)]).1.captchas ∧
    startsOf (processAll true [("Loja A", envOk), ("Loja B", envCaptcha), ("Loja C", envOk)]).2 =
      ["Loja A", "Loja B", "Loja C"] :=
  ⟨by decide, by decide,
    (C3_challenge_nonfatality true
      [("Loja A", envOk), ("Loja B", envCaptcha), ("Loja C", envOk)] 1 (by decide)
      (by decide)).1,
    (C3_challenge_nonfatality true
      [("Loja A", envOk), ("Loja B", envCaptcha), ("Loja C", envOk)] 1 (by decide)
      (by decide)).2⟩

/-- C4. Challenge-gate transitions: with a detected challenge and a
registered callback, the caller notification is the first emitted action;
in headless (unattended) mode the call raises immediately with no wait
event; in attended mode the call waits on the `div#search` results
container with the 300 s (300000 ms) bound, resuming when it reappears and
raising `CaptchaDetectedException` when the bound elapses. -/
theorem C4_challenge_gate (headless hasCallback : Bool) (env : GateEnv) (nome : String)
    (hdet : env.detected = true) (hcb : hasCallback = true) :
    (∃ tl, (challengeFlow headless hasCallback env nome).1 =
        GateEv.notifyCaller nome :: tl) ∧
    (headless = true →
      challengeFlow headless hasCallback env nome =
        ([GateEv.notifyCaller nome, GateEv.raiseChallenge], true)) ∧
    (headless = false → env.selectorWithinBound = true →
      challengeFlow headless hasCallback env nome =
        ([GateEv.notifyCaller nome,
          GateEv.waitForSelector "div#search" (300 * 1000), GateEv.resolved], false)) ∧
    (headless = false → env.selectorWithinBound = false →
      challengeFlow headless hasCallback env nome =
        ([GateEv.notifyCaller nome,
          GateEv.waitForSelector "div#search" (300 * 1000), GateEv.raiseChallenge], true)) := by
  subst hcb
  obtain ⟨d, sel⟩ := env
  replace hdet : d = true := hdet
  subst hdet
  cases headless <;> cases sel <;>
    refine ⟨⟨_, rfl⟩, ?_, ?_, ?_⟩ <;> simp [challengeFlow]

/-- Witness for C4: attended mode with the results container reappearing
notifies, waits once, and resumes. -/
theorem C4_challenge_gate_witness :
    (⟨true, true⟩ : GateEnv).detected = true ∧
    challengeFlow false true ⟨true, true⟩ "Padaria Central" =
      ([GateEv.notifyCaller "Padaria Central",
        GateEv.waitForSelector "div#search" (300 * 1000), GateEv.resolved], false) :=
  ⟨rfl, (C4_challenge_gate false true ⟨true, true⟩ "Padaria Central" rfl rfl).2.2.1 rfl rfl⟩

/-- C6 (counterexample). A two-subject run whose first subject ends in the
error bucket advances to the second subject with no jitter sleep in
between: the 3-7 s sleep sits on the success path only, so the pacing is
not performed regardless of terminal outcome. -/
theorem C6_pacing_counterexample :
    advanceWithoutSleep
      (processAll true [("Loja A", envSaveFail), ("Loja B", envOk)]).2 = true := by
  decide

/-- C6 (amended). The run trace is exactly the concatenation of per-subject
segments, where a subject's segment ends with the uniform 3-7 s jitter
sleep exactly when the subject completes the success path; consequently
the number of jitter sleeps equals `processed`, not the number of subject
transitions. -/
theorem C6_pacing_amended (headless : Bool) (companies : List (String × SubjectEnv)) :
    (processAll headless companies).2 = loopEvs headless companies.length 1 companies ∧
    countSleeps (processAll headless companies).2 =
      (processAll headless companies).1.processadas := by
  constructor
  · simp only [processAll, processLoop_snd]
  · obtain ⟨h1, h2, h3, h4, h5, h6⟩ :=
      foldl_applyBucket headless companies ⟨companies.length, 0, 0, 0, 0, 0⟩
    simp only [processAll, processLoop_snd, processLoop_fst, h2, countSleeps_loopEvs]
    omega

/-- C7 (counterexample). A subject whose page navigation raises inside the
search is not counted in `erros`: the search swallows the exception and
returns the empty result, so the subject lands in `sem_dados` with
`processadas = 1` and `erros = 0`. -/
theorem C7_transient_error_counterexample :
    (processAll true [("Loja A", envNavFail)]).1.erros = 0 ∧
    (processAll true [("Loja A", envNavFail)]).1.sem_dados = 1 ∧
    (processAll true [("Loja A", envNavFail)]).1.processadas = 1 := by
  decide

/-- C7 (amended). A navigation/render failure inside the search is swallowed
there: the subject yields an all-absent record and (when the save
succeeds) is classified `withoutData`, not `errors`, and the run continues
through every subject. -/
theorem C7_transient_error_routing (headless : Bool) (nome : String) (e : SubjectEnv)
    (h1 : e.navFails = true) (h2 : e.saveFails = false) :
    bucketOf headless nome e = Bucket.withoutData ∧
    ∀ companies : List (String × SubjectEnv),
      startsOf (processAll headless companies).2 = companies.map Prod.fst := by
  constructor
  · simp [bucketOf, processCompany, searchCompany, h1, h2, hasData, Except.map]
  · intro companies
    simp only [processAll, processLoop_snd, startsOf_loopEvs]

/-- Witness for C7: a navigation-failing subject lands in `withoutData` and
a run containing it still starts every subject. -/
theorem C7_transient_error_routing_witness :
    envNavFail.navFails = true ∧ envNavFail.saveFails = false ∧
    bucketOf true "Loja A" envNavFail = Bucket.withoutData ∧
    startsOf (processAll true [("Loja A", envNavFail), ("Loja B", envOk)]).2 =
      ["Loja A", "Loja B"] :=
  ⟨by decide, by decide,
    (C7_transient_error_routing true "Loja A" envNavFail (by decide) (by decide)).1,
    (C7_transient_error_routing true "Loja A" envNavFail (by decide) (by decide)).2
      [("Loja A", envNavFail), ("Loja B", envOk)]⟩
